import Mathlib

/-!
Verification development for a minimal image-hosting HTTP service
(single-file Python application `app.py`).

The byte strings of the program are modelled as `List Nat` (one entry per
byte).  Header text, which the program decodes as UTF-8, is modelled at the
byte level as well: every header constant in the program is ASCII, where
UTF-8 decoding is the identity.  Python primitives used by the program
(`bytes.find`, `bytes.split`, `bytes.strip`, slicing, `str.rfind`,
`os.path.splitext`, `int(str)`) are embedded below, each following the
documented CPython semantics on the inputs the program feeds them.
-/

/-- Bytes of an ASCII string literal. -/
def s2b (s : String) : List Nat := s.data.map Char.toNat

/-- Default whitespace test of Python bytes.strip (space, tab, LF, CR, VT, FF). -/
def pyIsSpace (b : Nat) : Bool :=
  b == 32 || b == 9 || b == 10 || b == 13 || b == 11 || b == 12

/-- Leading-whitespace strip (Python bytes.lstrip()). -/
def bytesLStrip (l : List Nat) : List Nat := l.dropWhile pyIsSpace

/-- Trailing-whitespace strip (Python bytes.rstrip()). -/
def bytesRStrip (l : List Nat) : List Nat := (l.reverse.dropWhile pyIsSpace).reverse

/-- Python bytes.strip(): whitespace removed from both ends. -/
def bytesStrip (l : List Nat) : List Nat := bytesRStrip (bytesLStrip l)

/-- ASCII lowercase map (Python str.lower on the ASCII text the program handles). -/
def bytesLower (l : List Nat) : List Nat :=
  l.map (fun b => if 65 ≤ b ∧ b ≤ 90 then b + 32 else b)

/-- First index at which sep occurs in hay, scanning left to right
(Python bytes.find, with none standing for the -1 result). -/
def bfindNat (sep : List Nat) : List Nat → Option Nat
  | [] => if sep.isPrefixOf ([] : List Nat) then some 0 else none
  | h :: t =>
    if sep.isPrefixOf (h :: t) then some 0 else (bfindNat sep t).map (· + 1)

/-- Python bytes.find: index of the first occurrence, -1 when absent. -/
def bfind (sep hay : List Nat) : Int :=
  match bfindNat sep hay with
  | none => -1
  | some i => i

/-- Python substring containment test (the in operator on bytes). -/
def containsSub (sep hay : List Nat) : Bool := (bfindNat sep hay).isSome

/-- sep occurs in hay at position j. -/
def occursAt (sep hay : List Nat) (j : Nat) : Prop := sep.isPrefixOf (hay.drop j) = true

instance occursAt.decidable (sep hay : List Nat) (j : Nat) :
    Decidable (occursAt sep hay j) := by
  unfold occursAt; infer_instance

/-- Fuel-driven worker for bsplit; fuel of hay.length + 1 always suffices
because every step consumes at least one byte of hay. -/
def bsplitAux (sep : List Nat) : Nat → List Nat → List (List Nat)
  | 0, hay => [hay]
  | fuel + 1, hay =>
    match bfindNat sep hay with
    | none => [hay]
    | some i => hay.take i :: bsplitAux sep fuel (hay.drop (i + sep.length))

/-- Python bytes.split(sep): split on non-overlapping occurrences of sep,
scanning left to right.  The program only splits on nonempty separators
(Python raises ValueError on an empty one; we return the unsplit input). -/
def bsplit (sep hay : List Nat) : List (List Nat) :=
  if sep.length = 0 then [hay] else bsplitAux sep (hay.length + 1) hay

/-- Clamp a Python slice endpoint (possibly negative) into [0, len]. -/
def pyIndexClamp (len : Nat) (i : Int) : Nat :=
  if i < 0 then ((len : Int) + i).toNat else min i.toNat len

/-- Python slice l[i:]. -/
def pySliceFrom (l : List Nat) (i : Int) : List Nat := l.drop (pyIndexClamp l.length i)

/-- Python slice l[0:j]. -/
def pySliceTo (l : List Nat) (j : Int) : List Nat := l.take (pyIndexClamp l.length j)

/-- Index of the last occurrence of byte c, if any. -/
def rlast (c : Nat) : List Nat → Option Nat
  | [] => none
  | b :: t =>
    match rlast c t with
    | some i => some (i + 1)
    | none => if b == c then some 0 else none

/-- Python str.rfind for a single character: last index, -1 when absent. -/
def pyRFind (c : Nat) (l : List Nat) : Int :=
  match rlast c l with
  | none => -1
  | some i => i

/-- Extension part of os.path.splitext (posixpath semantics): the suffix
starting at the last dot, provided that dot lies strictly after the last
path separator and some non-dot character precedes it in the basename. -/
def splitextExt (p : List Nat) : List Nat :=
  let sepIndex := pyRFind 47 p
  let dotIndex := pyRFind 46 p
  if sepIndex < dotIndex then
    if (List.range' (sepIndex + 1).toNat (dotIndex - sepIndex - 1).toNat).any
        (fun i => p.getD i 0 != 46) then
      pySliceFrom p dotIndex
    else []
  else []

/-- Decimal digit test. -/
def pyDigit (b : Nat) : Bool := decide (48 ≤ b) && decide (b ≤ 57)

/-- Value of a decimal digit string. -/
def digitsVal (l : List Nat) : Nat := l.foldl (fun acc b => acc * 10 + (b - 48)) 0

/-- Python int(str) on ASCII input: optional surrounding whitespace, an
optional sign, then at least one decimal digit (digit-group underscores of
CPython are not modelled; no header in the claims uses them). -/
def pyParseInt (s : List Nat) : Option Int :=
  match bytesStrip s with
  | 43 :: ds => if ds ≠ [] ∧ ds.all pyDigit then some (digitsVal ds) else none
  | 45 :: ds => if ds ≠ [] ∧ ds.all pyDigit then some (-(digitsVal ds : Int)) else none
  | ds => if ds ≠ [] ∧ ds.all pyDigit then some (digitsVal ds) else none

/-! Program constants (app.py lines 16-17). -/

/-- MAX_FILE_SIZE = 5 * 1024 * 1024. -/
def MAX_FILE_SIZE : Nat := 5 * 1024 * 1024

/-- ALLOWED_EXTENSIONS (as byte strings). -/
def ALLOWED_EXTENSIONS : List (List Nat) :=
  [s2b ".jpg", s2b ".jpeg", s2b ".png", s2b ".gif"]

/-- Bytes of the marker Content-Disposition: form-data; (line 324). -/
def CONTENT_DISPOSITION_MARK : List Nat := s2b "Content-Disposition: form-data;"

/-- Bytes of the marker filename= (line 324). -/
def FILENAME_MARK : List Nat := s2b "filename="

/-- Bytes of the literal filename=(quote) opening the regex match (line 330). -/
def FILENAME_ATTR : List Nat := s2b "filename=\""

/-- Header terminator bytes CRLF CRLF (line 326). -/
def CRLFCRLF : List Nat := [13, 10, 13, 10]

/-- re.search of the pattern filename="([^"]+)" over the decoded header text
(line 330): the leftmost position where the literal, a nonempty quote-free
run, and a closing quote all match; the captured run is returned. -/
def searchFilename : List Nat → Option (List Nat)
  | [] => none
  | h :: t =>
    if FILENAME_ATTR.isPrefixOf (h :: t) then
      let rest := (h :: t).drop FILENAME_ATTR.length
      let captured := rest.takeWhile (fun b => b != 34)
      if captured.length > 0 ∧ rest.drop captured.length ≠ [] then some captured
      else searchFilename t
    else searchFilename t

/-- Loop over the multipart segments (lines 323-339): the first part whose
bytes contain both the content-disposition marker and the filename marker
supplies the file data (bytes after the first CRLFCRLF, stripped) and the
filename captured by the regex; the loop then breaks, ignoring later parts.
The except-continue of the source fires only on a UTF-8 decode error, which
cannot arise in this byte-level model. -/
def scanParts : List (List Nat) → Option (List Nat) × Option (List Nat)
  | [] => (none, none)
  | part :: rest =>
    if containsSub CONTENT_DISPOSITION_MARK part && containsSub FILENAME_MARK part then
      let headers_end := bfind CRLFCRLF part
      let headers_str := pySliceTo part headers_end
      let filename := searchFilename headers_str
      let file_data := bytesStrip (pySliceFrom part (headers_end + 4))
      (some file_data, filename)
    else scanParts rest

/-- Python truthiness of the optional byte strings file_data and filename:
None and empty are falsy (line 341). -/
def pyTruthy : Option (List Nat) → Bool
  | none => false
  | some l => !l.isEmpty

/-! Data model: persisted image records, the filesystem/store state, and the
request/response shapes of the upload handler. -/

/-- Row of the images table (id, filename, original_name, size, file_type;
upload_time is assigned by the store and not used by any claim). -/
structure ImageRecord where
  id : Nat
  filename : List Nat
  original_name : List Nat
  size : Nat
  file_type : List Nat
deriving DecidableEq

/-- State visible to the handlers: upload directory contents (stored name,
content bytes) and the images table rows. -/
structure World where
  disk : List (List Nat × List Nat)
  store : List ImageRecord

/-- HTTP POST request as the handler sees it. -/
structure Request where
  path : String
  contentTypeHeader : Option (List Nat)
  contentLengthHeader : Option (List Nat)
  body : List Nat

/-- Environment choices made during a request: the uuid4().hex token, whether
the disk write succeeds, whether the database insert succeeds, and the id the
insert would return. -/
structure Oracle where
  uuidHex : List Nat
  writeOk : Bool
  insertOk : Bool
  newId : Nat

/-- Observable outcome of do_POST: status code, the message field of an error
JSON body (none for the success JSON), whether the request body was read,
the stored name if the file write was performed, and the final state. -/
structure PostResult where
  status : Nat
  message : Option String
  bodyRead : Bool
  wrote : Option (List Nat)
  world : World

/-- rfile.read(n) on a fully buffered body (a negative count reads to EOF). -/
def pyRead (body : List Nat) (n : Int) : List Nat :=
  if n < 0 then body else body.take n.toNat

/-- File checks of step 5 (lines 350-368): extension allow-list, then size
ceiling; some msg is the message of the 400 rejection, none is acceptance. -/
def validateFile (filename : List Nat) (file_size : Nat) : Option String :=
  let file_extension := bytesLower (splitextExt filename)
  if !(ALLOWED_EXTENSIONS.contains file_extension) then
    some "Неподдерживаемый формат файла. Допустимы: .jpg, .jpeg, .png, .gif"
  else if file_size > MAX_FILE_SIZE then
    some "Файл превышает максимальный размер 5MB."
  else none

/-- Steps 5-6 of do_POST (lines 348-423): validate, write the file under
uuid4().hex plus the extension, insert the metadata row; on insert failure
remove the just-written file (best effort) and answer 500. -/
def persistStage (g : Oracle) (w : World) (file_data filename : List Nat) : PostResult :=
  let file_size := file_data.length
  let file_extension := bytesLower (splitextExt filename)
  match validateFile filename file_size with
  | some msg =>
    { status := 400, message := some msg, bodyRead := true, wrote := none, world := w }
  | none =>
    let unique_filename := g.uuidHex ++ file_extension
    if g.writeOk then
      let disk1 := w.disk ++ [(unique_filename, file_data)]
      if g.insertOk then
        let rec0 : ImageRecord :=
          { id := g.newId, filename := unique_filename, original_name := filename,
            size := file_size, file_type := file_extension.dropWhile (fun b => b == 46) }
        { status := 200, message := none, bodyRead := true, wrote := some unique_filename,
          world := { disk := disk1, store := w.store ++ [rec0] } }
      else
        { status := 500, message := some "Ошибка сохранения метаданных в БД.",
          bodyRead := true, wrote := some unique_filename,
          world := { disk := disk1.filter (fun p => p.1 != unique_filename),
                     store := w.store } }
    else
      { status := 500, message := some "Произошла ошибка при сохранении файла.",
        bodyRead := true, wrote := none, world := w }

/-- The POST handler (lines 271-428), upload route: content-type check,
boundary extraction, content-length parsing with the oversize guard, body
read, multipart scan, truthiness check, then persistStage. -/
def do_POST (req : Request) (g : Oracle) (w : World) : PostResult :=
  if req.path = "/upload" then
    match req.contentTypeHeader with
    | none =>
      { status := 400, message := some "Ожидается multipart/form-data.",
        bodyRead := false, wrote := none, world := w }
    | some content_type_header =>
      if (s2b "multipart/form-data").isPrefixOf content_type_header then
        match (bsplit (s2b "boundary=") content_type_header).get? 1 with
        | none =>
          { status := 400, message := some "Boundary не найден.",
            bodyRead := false, wrote := none, world := w }
        | some boundary =>
          match req.contentLengthHeader with
          | none =>
            { status := 411, message := some "Некорректный Content-Length.",
              bodyRead := false, wrote := none, world := w }
          | some content_length_header =>
            match pyParseInt content_length_header with
            | none =>
              { status := 411, message := some "Некорректный Content-Length.",
                bodyRead := false, wrote := none, world := w }
            | some content_length =>
              if content_length > (MAX_FILE_SIZE * 2 : Int) then
                { status := 413, message := some "Запрос слишком большой.",
                  bodyRead := false, wrote := none, world := w }
              else
                let raw_body := pyRead req.body content_length
                let scanned := scanParts (bsplit (s2b "--" ++ boundary) raw_body)
                if pyTruthy scanned.1 && pyTruthy scanned.2 then
                  persistStage g w (scanned.1.getD []) (scanned.2.getD [])
                else
                  { status := 400, message := some "Файл не найден в запросе.",
                    bodyRead := true, wrote := none, world := w }
      else
        { status := 400, message := some "Ожидается multipart/form-data.",
          bodyRead := false, wrote := none, world := w }
  else
    { status := 404, message := none, bodyRead := false, wrote := none, world := w }

/-- The upload directory holds a file of the given stored name. -/
def diskHas (w : World) (name : List Nat) : Bool := w.disk.any (fun p => p.1 == name)

/-! Listing and delete handlers. -/

/-- Result of handle_images_list: page, COUNT(*), the LIMIT/OFFSET rows, and
the navigation flags (lines 126-161). -/
structure ListResult where
  page : Int
  total : Nat
  rows : List ImageRecord
  has_prev : Bool
  has_next : Bool

/-- handle_images_list on the page query parameter and the store rows already
ordered by upload_time DESC (the ORDER BY of the query): int(...) failures
and page < 1 clamp to page 1; per_page is 10; rows are LIMIT 10 OFFSET
(page-1)*10; has_prev is page > 1; has_next is offset + per_page < total. -/
def handle_images_list (pageParam : Option (List Nat)) (records : List ImageRecord) :
    ListResult :=
  let page : Int :=
    match pageParam with
    | none => 1
    | some s =>
      match pyParseInt s with
      | none => 1
      | some p => if p < 1 then 1 else p
  let per_page : Nat := 10
  let offset : Int := (page - 1) * (per_page : Int)
  let total : Nat := records.length
  let rows := (records.drop offset.toNat).take per_page
  { page := page, total := total, rows := rows,
    has_prev := decide (page > 1),
    has_next := decide (offset + (per_page : Int) < (total : Int)) }

/-- handle_delete (lines 221-251): look up the filename by id; absent ids get
404 with no mutation; otherwise the row is deleted, the backing file removed
(FileNotFoundError tolerated, log only), and a 303 redirect is sent. -/
def handle_delete (image_id : Nat) (w : World) : Nat × World :=
  match w.store.find? (fun r => r.id == image_id) with
  | none => (404, w)
  | some row =>
    let store1 := w.store.filter (fun r => r.id != image_id)
    let disk1 :=
      if row.filename.isEmpty then w.disk
      else w.disk.filter (fun p => p.1 != row.filename)
    (303, { disk := disk1, store := store1 })

/-! Database connection establishment. -/

/-- Python exception classes distinguished by the retry claims: the psycopg2
error raised by connect, the builtin ConnectionError (raised nowhere in the
program), and the TypeError of raising None. -/
inductive PyErr where
  | dbError (msg : String)
  | connectionError (msg : String)
  | typeError
deriving DecidableEq

/-- Observable trace of get_db_connection: the outcome, the number of connect
calls, the warning log per failed attempt, and the time.sleep count. -/
structure ConnTrace where
  result : Except PyErr Unit
  attempts : Nat
  logs : List (Nat × String)
  sleeps : Nat

/-- Loop body of get_db_connection: for attempt in range(1, max_attempts+1),
try connect; on failure log, remember the error and sleep; after the loop
raise last_error (lines 62-79).  connect yields none on success and the
error message on failure. -/
def connLoop (connect : Nat → Option String) : Nat → Nat → Option String → ConnTrace
  | _, 0, last =>
    { result := Except.error
        (match last with
         | some m => PyErr.dbError m
         | none => PyErr.typeError),
      attempts := 0, logs := [], sleeps := 0 }
  | attempt, remaining + 1, _ =>
    match connect attempt with
    | none => { result := Except.ok (), attempts := 1, logs := [], sleeps := 0 }
    | some e =>
      let rest := connLoop connect (attempt + 1) remaining (some e)
      { result := rest.result, attempts := rest.attempts + 1,
        logs := (attempt, e) :: rest.logs, sleeps := rest.sleeps + 1 }

/-- get_db_connection with its max_attempts parameter; the delay parameter
only feeds time.sleep and is dropped from the pure model (sleeps counts the
calls). -/
def get_db_connection (max_attempts : Nat) (connect : Nat → Option String) : ConnTrace :=
  connLoop connect 1 max_attempts none

/-- The result is the builtin ConnectionError. -/
def isConnectionErrorResult (t : ConnTrace) : Bool :=
  match t.result with
  | Except.error (PyErr.connectionError _) => true
  | _ => false

/-! Well-formed multipart bodies, assembled as RFC 2046 lays them out. -/

/-- Delimiter the handler splits on: two dashes plus the boundary token. -/
def mpSep (B : List Nat) : List Nat := s2b "--" ++ B

/-- Byte content of one file part between two delimiters: CRLF, the header
block, the CRLFCRLF terminator, the payload, CRLF. -/
def mpMiddle (H P : List Nat) : List Nat :=
  [13, 10] ++ H ++ [13, 10, 13, 10] ++ P ++ [13, 10]

/-- Trailer after the final delimiter: two dashes and CRLF. -/
def mpTail : List Nat := s2b "--\r\n"

/-- Well-formed multipart body with exactly one file field. -/
def mpBody1 (B H P : List Nat) : List Nat :=
  mpSep B ++ mpMiddle H P ++ mpSep B ++ mpTail

/-- Well-formed multipart body with two file fields. -/
def mpBody2 (B H1 P1 H2 P2 : List Nat) : List Nat :=
  mpSep B ++ mpMiddle H1 P1 ++ mpSep B ++ mpMiddle H2 P2 ++ mpSep B ++ mpTail

/-- The trimming described by the specification sentence under test: remove
one trailing CRLF and nothing else. -/
def trimOnlyTrailingCRLF (l : List Nat) : List Nat :=
  if [13, 10].isSuffixOf l then l.take (l.length - 2) else l

/-! Concrete inputs used to instantiate the theorems. -/

/-- Header block of a request uploading a.jpg. -/
def hdrJpg : List Nat :=
  s2b "Content-Disposition: form-data; name=\"file\"; filename=\"a.jpg\"\r\nContent-Type: image/jpeg"

/-- Header block of a request uploading a.txt. -/
def hdrTxt : List Nat :=
  s2b "Content-Disposition: form-data; name=\"file\"; filename=\"a.txt\"\r\nContent-Type: text/plain"

/-- Upload request around the given body, with the XBOUND boundary and a
declared length large enough to cover the whole body. -/
def reqUpload (body : List Nat) : Request :=
  { path := "/upload",
    contentTypeHeader := some (s2b "multipart/form-data; boundary=XBOUND"),
    contentLengthHeader := some (s2b "500"),
    body := body }

/-- Concrete single-file body carrying the payload hello under a.jpg. -/
def bodyJpg : List Nat := mpBody1 (s2b "XBOUND") hdrJpg (s2b "hello")

/-- Concrete single-file body carrying a .txt payload. -/
def bodyTxt : List Nat := mpBody1 (s2b "XBOUND") hdrTxt (s2b "hello")

/-- Concrete single-file body whose payload is whitespace only. -/
def bodyBlank : List Nat := mpBody1 (s2b "XBOUND") hdrJpg (s2b "   ")

/-- Concrete single-file body whose payload carries leading whitespace. -/
def bodyPad : List Nat := mpBody1 (s2b "XBOUND") hdrJpg (s2b " abc")

/-- Environment in which the file write succeeds and the insert fails. -/
def gRollback : Oracle :=
  { uuidHex := s2b "deadbeef", writeOk := true, insertOk := false, newId := 7 }

/-- Environment in which write and insert both succeed. -/
def gOk : Oracle :=
  { uuidHex := s2b "deadbeef", writeOk := true, insertOk := true, newId := 7 }

/-- Empty initial state. -/
def w0 : World := { disk := [], store := [] }

/-- State holding one record (id 1) and its backing file. -/
def wOne : World :=
  { disk := [(s2b "deadbeef.jpg", [1, 2, 3])],
    store := [{ id := 1, filename := s2b "deadbeef.jpg", original_name := s2b "a.jpg",
                size := 3, file_type := s2b "jpg" }] }

/-- n placeholder records, standing for the ordered rows of the table. -/
def dummyRecords (n : Nat) : List ImageRecord :=
  (List.range n).map
    (fun i => { id := i, filename := [120], original_name := [120], size := 1,
                file_type := [106] })

/-- Connection oracle on which every attempt fails the same way. -/
def failingConnect : Nat → Option String := fun _ => some "connection refused"

/-! Basic lemmas about the byte primitives. -/

theorem take_len_append (a b : List Nat) : (a ++ b).take a.length = a := by
  induction a with
  | nil => rfl
  | cons h t ih => simp [List.take, ih]

theorem drop_len_append (a b : List Nat) : (a ++ b).drop a.length = b := by
  induction a with
  | nil => rfl
  | cons h t ih => simp [ih]

theorem drop_add_append (a c : List Nat) (i : Nat) :
    (a ++ c).drop (a.length + i) = c.drop i := by
  induction a with
  | nil => simp
  | cons h t ih => simp [Nat.succ_add, ih]

theorem drop_append_le (a b : List Nat) (i : Nat) (h : i ≤ a.length) :
    (a ++ b).drop i = a.drop i ++ b := by
  induction a generalizing i with
  | nil =>
    have : i = 0 := by simpa using h
    subst this
    simp
  | cons x t ih =>
    cases i with
    | zero => rfl
    | succ j => simpa using ih j (by simpa using h)

theorem isPrefixOf_append_self (a b : List Nat) : a.isPrefixOf (a ++ b) = true := by
  induction a with
  | nil => simp [List.isPrefixOf]
  | cons h t ih => simp [List.isPrefixOf, ih]

theorem isPrefixOf_nil_eq (a : List Nat) (h : a.isPrefixOf ([] : List Nat) = true) :
    a = [] := by
  cases a with
  | nil => rfl
  | cons x t => simp [List.isPrefixOf] at h

theorem isPrefixOf_length_le (a : List Nat) :
    ∀ b : List Nat, a.isPrefixOf b = true → a.length ≤ b.length := by
  induction a with
  | nil => intro b _; simp
  | cons x t ih =>
    intro b h
    cases b with
    | nil => simp [List.isPrefixOf] at h
    | cons y u =>
      simp only [List.isPrefixOf, Bool.and_eq_true] at h
      simpa using ih u h.2

theorem isPrefixOf_append_right (a : List Nat) :
    ∀ c b : List Nat, a.isPrefixOf c = true → a.isPrefixOf (c ++ b) = true := by
  induction a with
  | nil => intro c b _; simp [List.isPrefixOf]
  | cons x t ih =>
    intro c b h
    cases c with
    | nil => simp [List.isPrefixOf] at h
    | cons y u =>
      simp only [List.isPrefixOf, Bool.and_eq_true] at h ⊢
      exact ⟨h.1, ih u b h.2⟩

theorem bfindNat_le {sep : List Nat} :
    ∀ {hay : List Nat} {i : Nat}, bfindNat sep hay = some i → i + sep.length ≤ hay.length := by
  intro hay
  induction hay with
  | nil =>
    intro i h
    unfold bfindNat at h
    split at h
    · rename_i hp
      have := isPrefixOf_nil_eq sep hp
      simp_all
    · simp_all
  | cons x t ih =>
    intro i h
    unfold bfindNat at h
    split at h
    · rename_i hp
      have hlen := isPrefixOf_length_le sep (x :: t) hp
      simp only [List.length_cons] at hlen
      cases h
      simp only [List.length_cons]
      omega
    · rcases Option.map_eq_some'.mp h with ⟨j, hj, hji⟩
      have := ih hj
      subst hji
      simp only [List.length_cons]
      omega

theorem bfindNat_occurs {sep : List Nat} :
    ∀ {hay : List Nat} {i : Nat}, bfindNat sep hay = some i → occursAt sep hay i := by
  intro hay
  induction hay with
  | nil =>
    intro i h
    unfold bfindNat at h
    split at h
    · rename_i hp
      cases h
      exact hp
    · simp_all
  | cons x t ih =>
    intro i h
    unfold bfindNat at h
    split at h
    · rename_i hp
      cases h
      exact hp
    · rcases Option.map_eq_some'.mp h with ⟨j, hj, hji⟩
      subst hji
      exact ih hj

theorem bfindNat_eq_none_iff (sep : List Nat) :
    ∀ hay : List Nat, bfindNat sep hay = none ↔ ∀ j, ¬ occursAt sep hay j := by
  intro hay
  induction hay with
  | nil =>
    constructor
    · intro h j hocc
      unfold bfindNat at h
      have : sep = [] := isPrefixOf_nil_eq sep (by
        unfold occursAt at hocc
        simpa using hocc)
      simp [this, List.isPrefixOf] at h
    · intro h
      unfold bfindNat
      split
      · rename_i hp
        exact absurd hp (h 0)
      · rfl
  | cons x t ih =>
    constructor
    · intro h j hocc
      unfold bfindNat at h
      split at h
      · simp_all
      · rename_i hp
        cases j with
        | zero => exact hp (by simpa [occursAt] using hocc)
        | succ k =>
          have hnone : bfindNat sep t = none := by
            cases hfind : bfindNat sep t with
            | none => rfl
            | some v => simp [hfind] at h
          exact (ih.mp hnone) k (by simpa [occursAt] using hocc)
    · intro h
      unfold bfindNat
      split
      · rename_i hp
        exact absurd hp (h 0)
      · have hnone : bfindNat sep t = none :=
          ih.mpr (fun k hk => h (k + 1) (by simpa [occursAt] using hk))
        simp [hnone]

theorem bfindNat_of_first {sep : List Nat} :
    ∀ {n : Nat} {hay : List Nat}, occursAt sep hay n →
      (∀ j, j < n → ¬ occursAt sep hay j) → bfindNat sep hay = some n := by
  intro n
  induction n with
  | zero =>
    intro hay hocc _
    cases hay with
    | nil =>
      unfold bfindNat
      simp only [occursAt, List.drop] at hocc
      simp [hocc]
    | cons x t =>
      unfold bfindNat
      simp only [occursAt, List.drop] at hocc
      simp [hocc]
  | succ m ih =>
    intro hay hocc hfirst
    cases hay with
    | nil =>
      exfalso
      have : sep = [] := isPrefixOf_nil_eq sep (by simpa [occursAt] using hocc)
      exact hfirst 0 (Nat.zero_lt_succ m) (by simp [occursAt, this, List.isPrefixOf])
    | cons x t =>
      have hnp : ¬ sep.isPrefixOf (x :: t) = true := by
        have := hfirst 0 (Nat.zero_lt_succ m)
        simpa [occursAt] using this
      unfold bfindNat
      rw [if_neg hnp]
      have ht : bfindNat sep t = some m := by
        apply ih
        · simpa [occursAt] using hocc
        · intro j hj
          have := hfirst (j + 1) (by omega)
          simpa [occursAt] using this
      simp [ht]

theorem containsSub_false_find {sep hay : List Nat} (h : containsSub sep hay = false) :
    bfindNat sep hay = none := by
  unfold containsSub at h
  cases hfind : bfindNat sep hay with
  | none => rfl
  | some v => simp [hfind] at h

theorem bfindNat_nil_sep (hay : List Nat) : bfindNat ([] : List Nat) hay = some 0 := by
  cases hay <;> simp [bfindNat, List.isPrefixOf]

theorem containsSub_append (n H a b : List Nat) (h : containsSub n H = true) :
    containsSub n (a ++ H ++ b) = true := by
  unfold containsSub at h ⊢
  cases hfind : bfindNat n H with
  | none => simp [hfind] at h
  | some i =>
    have hocc : occursAt n H i := bfindNat_occurs hfind
    by_cases hi : i ≤ H.length
    · have hocc2 : occursAt n (a ++ H ++ b) (a.length + i) := by
        unfold occursAt at hocc ⊢
        rw [List.append_assoc, drop_add_append, drop_append_le H b i hi]
        exact isPrefixOf_append_right n (H.drop i) b hocc
      cases hfind2 : bfindNat n (a ++ H ++ b) with
      | none => exact absurd hocc2 (((bfindNat_eq_none_iff n _).mp hfind2) _)
      | some v => rfl
    · unfold occursAt at hocc
      rw [List.drop_eq_nil_of_le (by omega)] at hocc
      have hn : n = [] := isPrefixOf_nil_eq n hocc
      subst hn
      simp [bfindNat_nil_sep]

theorem bsplitAux_congr (sep : List Nat) (hsep : sep ≠ []) :
    ∀ f₁ f₂ hay, hay.length < f₁ → hay.length < f₂ →
      bsplitAux sep f₁ hay = bsplitAux sep f₂ hay := by
  intro f₁
  induction f₁ with
  | zero => intro f₂ hay h1; omega
  | succ g ih =>
    intro f₂ hay h1 h2
    cases f₂ with
    | zero => omega
    | succ g2 =>
      unfold bsplitAux
      cases hfind : bfindNat sep hay with
      | none => rfl
      | some i =>
        have hle := bfindNat_le hfind
        have hlen : (hay.drop (i + sep.length)).length < hay.length := by
          have hpos : 0 < sep.length := List.length_pos.mpr hsep
          simp only [List.length_drop]
          omega
        simp only
        rw [ih g2 _ (by omega) (by omega)]

theorem bsplit_cons_of_find (sep hay : List Nat) (i : Nat) (hsep : sep ≠ [])
    (h : bfindNat sep hay = some i) :
    bsplit sep hay = hay.take i :: bsplit sep (hay.drop (i + sep.length)) := by
  have hlen : ¬ sep.length = 0 := by
    simpa [List.length_eq_zero] using hsep
  have hle := bfindNat_le h
  have hpos : 0 < sep.length := List.length_pos.mpr hsep
  have hdlen : (hay.drop (i + sep.length)).length < hay.length := by
    simp only [List.length_drop]; omega
  unfold bsplit
  rw [if_neg hlen, if_neg hlen]
  unfold bsplitAux
  simp only [h]
  congr 1
  exact bsplitAux_congr sep hsep hay.length ((hay.drop (i + sep.length)).length + 1) _
    hdlen (by omega)

theorem bsplit_of_none (sep hay : List Nat) (hsep : sep ≠ [])
    (h : bfindNat sep hay = none) : bsplit sep hay = [hay] := by
  unfold bsplit
  have hlen : ¬ sep.length = 0 := by
    simpa [List.length_eq_zero] using hsep
  rw [if_neg hlen]
  unfold bsplitAux
  rw [h]

theorem bsplit_chunk (sep m rest : List Nat) (hsep : sep ≠ [])
    (hfirst : ∀ j, j < m.length → ¬ occursAt sep (m ++ sep ++ rest) j) :
    bsplit sep (m ++ sep ++ rest) = m :: bsplit sep rest := by
  have hocc : occursAt sep (m ++ sep ++ rest) m.length := by
    unfold occursAt
    rw [List.append_assoc, drop_len_append]
    exact isPrefixOf_append_self sep rest
  have hfind := bfindNat_of_first hocc hfirst
  rw [bsplit_cons_of_find sep _ m.length hsep hfind]
  congr 1
  · rw [List.append_assoc, take_len_append]
  · congr 1
    rw [List.append_assoc, drop_add_append, drop_len_append]

theorem bytesRStrip_append_crlf (P : List Nat) :
    bytesRStrip (P ++ [13, 10]) = bytesRStrip P := by
  unfold bytesRStrip
  rw [List.reverse_append]
  simp [List.dropWhile, pyIsSpace]

theorem bytesStrip_append_crlf (P : List Nat) :
    bytesStrip (P ++ [13, 10]) = bytesStrip P := by
  unfold bytesStrip bytesLStrip
  rw [List.dropWhile_append]
  by_cases h : (P.dropWhile pyIsSpace).isEmpty
  · rw [if_pos h]
    have hnil : P.dropWhile pyIsSpace = [] := by
      cases hd : P.dropWhile pyIsSpace with
      | nil => rfl
      | cons x t => simp [hd] at h
    rw [hnil]
    decide
  · rw [if_neg h]
    exact bytesRStrip_append_crlf _

theorem bytesStrip_all_space (p : List Nat) (h : ∀ b ∈ p, pyIsSpace b = true) :
    bytesStrip p = [] := by
  unfold bytesStrip bytesLStrip
  have hnil : p.dropWhile pyIsSpace = [] := by
    induction p with
    | nil => rfl
    | cons x t ih =>
      have hx := h x (by simp)
      simp only [List.dropWhile, hx]
      exact ih (fun b hb => h b (by simp [hb]))
  rw [hnil]
  rfl

theorem scanParts_skip (part : List Nat) (rest : List (List Nat))
    (h : (containsSub CONTENT_DISPOSITION_MARK part
          && containsSub FILENAME_MARK part) = false) :
    scanParts (part :: rest) = scanParts rest := by
  conv_lhs => unfold scanParts
  simp [h]

theorem scanParts_match (H P : List Nat) (rest : List (List Nat))
    (hcd : containsSub CONTENT_DISPOSITION_MARK H = true)
    (hfn : containsSub FILENAME_MARK H = true)
    (hterm : ∀ j, j < 2 + H.length → ¬ occursAt CRLFCRLF (mpMiddle H P) j) :
    scanParts (mpMiddle H P :: rest)
      = (some (bytesStrip P), searchFilename ([13, 10] ++ H)) := by
  have hshape1 : mpMiddle H P
      = (([13, 10] : List Nat) ++ H) ++ ([13, 10, 13, 10] ++ P ++ [13, 10]) := by
    simp [mpMiddle]
  have hshape2 : mpMiddle H P
      = (([13, 10] : List Nat) ++ H ++ [13, 10, 13, 10]) ++ (P ++ [13, 10]) := by
    simp [mpMiddle]
  have hlen1 : ((([13, 10] : List Nat) ++ H)).length = 2 + H.length := by
    simp
    omega
  have hlen2 : ((([13, 10] : List Nat) ++ H ++ [13, 10, 13, 10])).length = 2 + H.length + 4 := by
    simp
    omega
  have hcd' : containsSub CONTENT_DISPOSITION_MARK (mpMiddle H P) = true := by
    have := containsSub_append CONTENT_DISPOSITION_MARK H
      [13, 10] ([13, 10, 13, 10] ++ P ++ [13, 10]) hcd
    simpa [mpMiddle] using this
  have hfn' : containsSub FILENAME_MARK (mpMiddle H P) = true := by
    have := containsSub_append FILENAME_MARK H
      [13, 10] ([13, 10, 13, 10] ++ P ++ [13, 10]) hfn
    simpa [mpMiddle] using this
  have hocc : occursAt CRLFCRLF (mpMiddle H P) (2 + H.length) := by
    unfold occursAt
    rw [hshape1, List.drop_left' hlen1]
    exact isPrefixOf_append_self CRLFCRLF (P ++ [13, 10])
  have hfind : bfindNat CRLFCRLF (mpMiddle H P) = some (2 + H.length) :=
    bfindNat_of_first hocc hterm
  have hbfind : bfind CRLFCRLF (mpMiddle H P) = ((2 + H.length : Nat) : Int) := by
    unfold bfind
    rw [hfind]
  have hmidlen : (mpMiddle H P).length = H.length + P.length + 8 := by
    simp [mpMiddle]
    omega
  have hheaders : pySliceTo (mpMiddle H P) (bfind CRLFCRLF (mpMiddle H P))
      = [13, 10] ++ H := by
    rw [hbfind]
    unfold pySliceTo pyIndexClamp
    rw [if_neg (by omega)]
    have htn : ((2 + H.length : Nat) : Int).toNat = 2 + H.length := by omega
    rw [htn, Nat.min_eq_left (by omega)]
    rw [hshape1, List.take_left' hlen1]
  have hdata : pySliceFrom (mpMiddle H P) (bfind CRLFCRLF (mpMiddle H P) + 4)
      = P ++ [13, 10] := by
    rw [hbfind]
    unfold pySliceFrom pyIndexClamp
    rw [if_neg (by omega)]
    have htn : (((2 + H.length : Nat) : Int) + 4).toNat = 2 + H.length + 4 := by
      omega
    rw [htn, Nat.min_eq_left (by omega)]
    rw [hshape2, List.drop_left' hlen2]
  unfold scanParts
  rw [hcd', hfn']
  simp only [Bool.and_self, if_true]
  rw [hheaders, hdata, bytesStrip_append_crlf]

theorem mpSep_ne_nil (B : List Nat) : mpSep B ≠ [] := by
  intro h
  have h2 : (45 :: 45 :: B) = ([] : List Nat) := by
    have he : mpSep B = 45 :: 45 :: B := rfl
    rw [he] at h
    exact h
  simp at h2

theorem bsplit_mpBody1 (B H P : List Nat)
    (hnd1 : ∀ j, j < (mpMiddle H P).length →
      ¬ occursAt (mpSep B) (mpMiddle H P ++ mpSep B ++ mpTail) j)
    (htail : containsSub (mpSep B) mpTail = false) :
    bsplit (mpSep B) (mpBody1 B H P) = [[], mpMiddle H P, mpTail] := by
  have hsep := mpSep_ne_nil B
  have h1 : bsplit (mpSep B) (mpBody1 B H P)
      = [] :: bsplit (mpSep B) (mpMiddle H P ++ mpSep B ++ mpTail) := by
    have := bsplit_chunk (mpSep B) [] (mpMiddle H P ++ mpSep B ++ mpTail) hsep
      (fun j hj => absurd hj (by simp))
    simpa [mpBody1] using this
  rw [h1, bsplit_chunk (mpSep B) (mpMiddle H P) mpTail hsep hnd1,
      bsplit_of_none (mpSep B) mpTail hsep (containsSub_false_find htail)]

theorem bsplit_mpBody2 (B H1 P1 H2 P2 : List Nat)
    (hnd1 : ∀ j, j < (mpMiddle H1 P1).length →
      ¬ occursAt (mpSep B)
        (mpMiddle H1 P1 ++ mpSep B ++ (mpMiddle H2 P2 ++ mpSep B ++ mpTail)) j)
    (hnd2 : ∀ j, j < (mpMiddle H2 P2).length →
      ¬ occursAt (mpSep B) (mpMiddle H2 P2 ++ mpSep B ++ mpTail) j)
    (htail : containsSub (mpSep B) mpTail = false) :
    bsplit (mpSep B) (mpBody2 B H1 P1 H2 P2)
      = [[], mpMiddle H1 P1, mpMiddle H2 P2, mpTail] := by
  have hsep := mpSep_ne_nil B
  have h1 : bsplit (mpSep B) (mpBody2 B H1 P1 H2 P2)
      = [] :: bsplit (mpSep B)
          (mpMiddle H1 P1 ++ mpSep B ++ (mpMiddle H2 P2 ++ mpSep B ++ mpTail)) := by
    have := bsplit_chunk (mpSep B)
      [] (mpMiddle H1 P1 ++ mpSep B ++ (mpMiddle H2 P2 ++ mpSep B ++ mpTail)) hsep
      (fun j hj => absurd hj (by simp))
    simpa [mpBody2] using this
  rw [h1,
      bsplit_chunk (mpSep B) (mpMiddle H1 P1) (mpMiddle H2 P2 ++ mpSep B ++ mpTail) hsep hnd1,
      bsplit_chunk (mpSep B) (mpMiddle H2 P2) mpTail hsep hnd2,
      bsplit_of_none (mpSep B) mpTail hsep (containsSub_false_find htail)]

theorem scanParts_nil_part (rest : List (List Nat)) :
    scanParts (([] : List Nat) :: rest) = scanParts rest := by
  apply scanParts_skip
  decide

/-- Claim C2, amended: for every well-formed multipart body, the extraction
step yields the bytes between the first CRLF CRLF header terminator and the
next boundary delimiter with all leading and trailing ASCII whitespace
stripped (Python bytes.strip), not merely trimmed of the trailing CRLF; and
only the first qualifying file field is honored — a second file field leaves
the result unchanged.  Well-formedness: the header block holds the
content-disposition and filename markers and a parsable filename attribute,
the header terminator first occurs at the end of the header block, the
boundary delimiter does not occur before its delimiter positions, and the
closing trailer contains no further delimiter. -/
theorem multipart_extraction_first_field
    (B H P H2 P2 fname : List Nat)
    (hcd : containsSub CONTENT_DISPOSITION_MARK H = true)
    (hfn : containsSub FILENAME_MARK H = true)
    (hsearch : searchFilename ([13, 10] ++ H) = some fname)
    (hterm : ∀ j, j < 2 + H.length → ¬ occursAt CRLFCRLF (mpMiddle H P) j)
    (hnd1 : ∀ j, j < (mpMiddle H P).length →
      ¬ occursAt (mpSep B) (mpMiddle H P ++ mpSep B ++ mpTail) j)
    (hnd1' : ∀ j, j < (mpMiddle H P).length →
      ¬ occursAt (mpSep B)
        (mpMiddle H P ++ mpSep B ++ (mpMiddle H2 P2 ++ mpSep B ++ mpTail)) j)
    (hnd2 : ∀ j, j < (mpMiddle H2 P2).length →
      ¬ occursAt (mpSep B) (mpMiddle H2 P2 ++ mpSep B ++ mpTail) j)
    (htail : containsSub (mpSep B) mpTail = false) :
    scanParts (bsplit (mpSep B) (mpBody1 B H P)) = (some (bytesStrip P), some fname)
    ∧ scanParts (bsplit (mpSep B) (mpBody2 B H P H2 P2))
        = (some (bytesStrip P), some fname) := by
  constructor
  · rw [bsplit_mpBody1 B H P hnd1 htail, scanParts_nil_part,
        scanParts_match H P _ hcd hfn hterm, hsearch]
  · rw [bsplit_mpBody2 B H P H2 P2 hnd1' hnd2 htail, scanParts_nil_part,
        scanParts_match H P _ hcd hfn hterm, hsearch]

set_option maxRecDepth 100000 in
/-- Witness for C2 at a concrete boundary, header block and payloads. -/
theorem multipart_extraction_witness :
    scanParts (bsplit (mpSep (s2b "XBOUND")) (mpBody1 (s2b "XBOUND") hdrJpg (s2b "hello")))
      = (some (bytesStrip (s2b "hello")), some (s2b "a.jpg"))
    ∧ scanParts (bsplit (mpSep (s2b "XBOUND"))
        (mpBody2 (s2b "XBOUND") hdrJpg (s2b "hello") hdrTxt (s2b "world")))
      = (some (bytesStrip (s2b "hello")), some (s2b "a.jpg")) :=
  multipart_extraction_first_field (s2b "XBOUND") hdrJpg (s2b "hello") hdrTxt
    (s2b "world") (s2b "a.jpg")
    (by decide) (by decide) (by decide) (by decide) (by decide) (by decide)
    (by decide) (by decide)

set_option maxRecDepth 100000 in
/-- Counterexample to C2 as stated: in the well-formed single-file body
bodyPad the bytes between the header terminator and the next boundary are
space a b c CRLF, so trimming only the trailing CRLF would give the payload
with its leading space, but the extraction step returns the payload with the
leading space removed as well. -/
theorem multipart_strip_counterexample :
    bodyPad = (mpSep (s2b "XBOUND") ++ [13, 10] ++ hdrJpg ++ [13, 10, 13, 10])
        ++ (s2b " abc" ++ [13, 10]) ++ (mpSep (s2b "XBOUND") ++ mpTail)
    ∧ trimOnlyTrailingCRLF (s2b " abc" ++ [13, 10]) = s2b " abc"
    ∧ (scanParts (bsplit (mpSep (s2b "XBOUND")) bodyPad)).1 = some (s2b "abc")
    ∧ s2b "abc" ≠ s2b " abc" := by
  exact ⟨by decide, by decide, by decide, by decide⟩

theorem pyTruthy_getD {o : Option (List Nat)} (h : pyTruthy o = true) : o.getD [] ≠ [] := by
  cases o with
  | none => simp [pyTruthy] at h
  | some l =>
    cases l with
    | nil => simp [pyTruthy] at h
    | cons x t => simp

theorem isEmpty_false_of_ne {l : List Nat} (h : l ≠ []) : l.isEmpty = false := by
  cases l with
  | nil => exact absurd rfl h
  | cons x t => rfl

theorem any_key_filter {α β : Type} [BEq β] [LawfulBEq β]
    (l : List α) (k : α → β) (x : β) :
    ((l.filter (fun a => k a != x)).any (fun a => k a == x)) = false := by
  induction l with
  | nil => rfl
  | cons a t ih =>
    simp only [List.filter]
    cases h : (k a != x) with
    | false => simp [ih]
    | true =>
      have hne : (k a == x) = false := by
        cases hx : (k a == x) with
        | false => rfl
        | true => simp [bne, hx] at h
      simp [List.any_cons, hne, ih]

/-- All rejection paths of do_POST before the body read, and the dispatch to
persistStage once the extraction succeeds, packaged as one rewriting lemma. -/
theorem do_POST_extracted (req : Request) (g : Oracle) (w : World)
    (ct boundary clh : List Nat) (n : Int) (fd fn : List Nat)
    (hp : req.path = "/upload")
    (h1 : req.contentTypeHeader = some ct)
    (h2 : (s2b "multipart/form-data").isPrefixOf ct = true)
    (h3 : (bsplit (s2b "boundary=") ct).get? 1 = some boundary)
    (h4 : req.contentLengthHeader = some clh)
    (h5 : pyParseInt clh = some n)
    (h6 : ¬ n > (MAX_FILE_SIZE * 2 : Int))
    (h7 : scanParts (bsplit (s2b "--" ++ boundary) (pyRead req.body n)) = (some fd, some fn))
    (h8 : fd ≠ []) (h9 : fn ≠ []) :
    do_POST req g w = persistStage g w fd fn := by
  have h8' : fd.isEmpty = false := isEmpty_false_of_ne h8
  have h9' : fn.isEmpty = false := isEmpty_false_of_ne h9
  have h3' : (bsplit (s2b "boundary=") ct)[1]? = some boundary := by
    simpa using h3
  unfold do_POST
  simp [hp, h1, h2, h3', h4, h5, h6, h7, h8', h9', pyTruthy]

/-- Claim C1: for every upload request in which the file write succeeds but
the metadata insert fails, do_POST answers 500, the just-written file is no
longer on disk, and the store is unchanged. -/
theorem upload_rollback_atomicity (req : Request) (g : Oracle) (w : World)
    (name : List Nat) (hins : g.insertOk = false)
    (hw : (do_POST req g w).wrote = some name) :
    (do_POST req g w).status = 500
    ∧ diskHas (do_POST req g w).world name = false
    ∧ (do_POST req g w).world.store = w.store := by
  revert hw
  unfold do_POST persistStage diskHas
  simp only []
  repeat' split
  all_goals intro hw
  all_goals simp_all [any_key_filter]

set_option maxRecDepth 400000 in
/-- Witness for C1: a concrete valid a.jpg upload whose insert fails. -/
theorem upload_rollback_atomicity_witness :
    (do_POST (reqUpload bodyJpg) gRollback w0).status = 500
    ∧ diskHas (do_POST (reqUpload bodyJpg) gRollback w0).world (s2b "deadbeef.jpg") = false
    ∧ (do_POST (reqUpload bodyJpg) gRollback w0).world.store = w0.store :=
  upload_rollback_atomicity (reqUpload bodyJpg) gRollback w0 (s2b "deadbeef.jpg")
    rfl (by decide)

/-- Claim C5: a declared Content-Length above 2 * MAX_FILE_SIZE is answered
413 before any body byte is read, with no state change. -/
theorem oversized_body_early_rejection (req : Request) (g : Oracle) (w : World)
    (ct boundary clh : List Nat) (n : Int)
    (hp : req.path = "/upload")
    (h1 : req.contentTypeHeader = some ct)
    (h2 : (s2b "multipart/form-data").isPrefixOf ct = true)
    (h3 : (bsplit (s2b "boundary=") ct).get? 1 = some boundary)
    (h4 : req.contentLengthHeader = some clh)
    (h5 : pyParseInt clh = some n)
    (h6 : n > (MAX_FILE_SIZE * 2 : Int)) :
    do_POST req g w
      = { status := 413, message := some "Запрос слишком большой.",
          bodyRead := false, wrote := none, world := w } := by
  have h3' : (bsplit (s2b "boundary=") ct)[1]? = some boundary := by
    simpa using h3
  unfold do_POST
  simp [hp, h1, h2, h3', h4, h5, h6]

set_option maxRecDepth 100000 in
/-- Witness for C5: a request declaring 10485761 body bytes. -/
theorem oversized_body_early_rejection_witness :
    do_POST { path := "/upload",
              contentTypeHeader := some (s2b "multipart/form-data; boundary=XBOUND"),
              contentLengthHeader := some (s2b "10485761"),
              body := bodyJpg } gOk w0
      = { status := 413, message := some "Запрос слишком большой.",
          bodyRead := false, wrote := none, world := w0 } :=
  oversized_body_early_rejection _ gOk w0
    (s2b "multipart/form-data; boundary=XBOUND") (s2b "XBOUND") (s2b "10485761")
    10485761 rfl rfl (by decide) (by decide) rfl (by decide) (by decide)

/-- Claim C6: on the upload route with a well-formed multipart content type,
a missing or non-numeric Content-Length is answered 411 with the error JSON
message, before any body byte is read and with no state change. -/
theorem length_required_rejection :
    (∀ (req : Request) (g : Oracle) (w : World) (ct boundary : List Nat),
      req.path = "/upload" →
      req.contentTypeHeader = some ct →
      (s2b "multipart/form-data").isPrefixOf ct = true →
      (bsplit (s2b "boundary=") ct).get? 1 = some boundary →
      req.contentLengthHeader = none →
      do_POST req g w
        = { status := 411, message := some "Некорректный Content-Length.",
            bodyRead := false, wrote := none, world := w })
    ∧ (∀ (req : Request) (g : Oracle) (w : World) (ct boundary clh : List Nat),
      req.path = "/upload" →
      req.contentTypeHeader = some ct →
      (s2b "multipart/form-data").isPrefixOf ct = true →
      (bsplit (s2b "boundary=") ct).get? 1 = some boundary →
      req.contentLengthHeader = some clh →
      pyParseInt clh = none →
      do_POST req g w
        = { status := 411, message := some "Некорректный Content-Length.",
            bodyRead := false, wrote := none, world := w }) := by
  constructor
  · intro req g w ct boundary hp h1 h2 h3 h4
    have h3' : (bsplit (s2b "boundary=") ct)[1]? = some boundary := by
      simpa using h3
    unfold do_POST
    simp [hp, h1, h2, h3', h4]
  · intro req g w ct boundary clh hp h1 h2 h3 h4 h5
    have h3' : (bsplit (s2b "boundary=") ct)[1]? = some boundary := by
      simpa using h3
    unfold do_POST
    simp [hp, h1, h2, h3', h4, h5]

set_option maxRecDepth 100000 in
/-- Witness for C6: a request without a Content-Length header. -/
theorem length_required_rejection_witness :
    do_POST { path := "/upload",
              contentTypeHeader := some (s2b "multipart/form-data; boundary=XBOUND"),
              contentLengthHeader := none,
              body := bodyJpg } gOk w0
      = { status := 411, message := some "Некорректный Content-Length.",
          bodyRead := false, wrote := none, world := w0 } :=
  length_required_rejection.1 _ gOk w0
    (s2b "multipart/form-data; boundary=XBOUND") (s2b "XBOUND")
    rfl rfl (by decide) (by decide) rfl

theorem rlast_append (c : Nat) (a b : List Nat) :
    rlast c (a ++ b)
      = match rlast c b with
        | some j => some (a.length + j)
        | none => rlast c a := by
  induction a with
  | nil =>
    cases h : rlast c b with
    | none => simp [h, rlast]
    | some j => simp [h]
  | cons x t ih =>
    show (match rlast c (t ++ b) with
          | some i => some (i + 1)
          | none => if x == c then some 0 else none) = _
    rw [ih]
    cases h : rlast c b with
    | none => rfl
    | some j =>
      simp only [List.length_cons]
      congr 1
      omega

theorem rlast_not_mem (c : Nat) (l : List Nat) (h : ¬ c ∈ l) : rlast c l = none := by
  induction l with
  | nil => rfl
  | cons x t ih =>
    have hx : (x == c) = false := by
      simp only [beq_eq_false_iff_ne]
      intro he
      exact h (by simp [he])
    have ht : rlast c t = none := ih (fun hm => h (by simp [hm]))
    show (match rlast c t with
          | some i => some (i + 1)
          | none => if x == c then some 0 else none) = none
    rw [ht, hx]
    simp

theorem splitextExt_stem_jpg (stem : List Nat) (hne : stem ≠ [])
    (h46 : ¬ 46 ∈ stem) (h47 : ¬ 47 ∈ stem) :
    splitextExt (stem ++ s2b ".JPG") = s2b ".JPG" := by
  have hdot : rlast 46 (stem ++ s2b ".JPG") = some stem.length := by
    rw [rlast_append]
    rw [show rlast 46 (s2b ".JPG") = some 0 from by decide]
    simp
  have hsep : rlast 47 (stem ++ s2b ".JPG") = none := by
    rw [rlast_append]
    rw [show rlast 47 (s2b ".JPG") = none from by decide]
    exact rlast_not_mem 47 stem h47
  unfold splitextExt pyRFind
  rw [hdot, hsep]
  simp only []
  rw [if_pos (by omega)]
  have hrange : ((-1 : Int) + 1).toNat = 0 := by decide
  have hcount : ((stem.length : Int) - (-1) - 1).toNat = stem.length := by omega
  rw [hrange, hcount]
  have hany : (List.range' 0 stem.length).any
      (fun i => (stem ++ s2b ".JPG").getD i 0 != 46) = true := by
    cases stem with
    | nil => exact absurd rfl hne
    | cons s0 rest =>
      apply List.any_eq_true.mpr
      refine ⟨0, ?_, ?_⟩
      · simp [List.mem_range']
      · have hg : ((s0 :: rest) ++ s2b ".JPG").getD 0 0 = s0 := rfl
        rw [hg]
        have hs0 : s0 ≠ 46 := fun he => h46 (by simp [he])
        simpa using hs0
  rw [if_pos hany]
  unfold pySliceFrom pyIndexClamp
  rw [if_neg (by omega)]
  have htn : ((stem.length : Nat) : Int).toNat = stem.length := by omega
  rw [htn, Nat.min_eq_left (by simp)]
  exact List.drop_left stem (s2b ".JPG")

/-- Claim C3: a payload of exactly MAX_FILE_SIZE bytes with an allow-listed
extension passes validation; MAX_FILE_SIZE + 1 bytes is always rejected, and
any validation rejection is answered 400 with no state change; extension
matching is case-insensitive: a filename ending in .JPG normalizes to .jpg
and passes validation at any size within the ceiling. -/
theorem validator_boundary :
    (∀ (fn : List Nat) (size : Nat),
      ALLOWED_EXTENSIONS.contains (bytesLower (splitextExt fn)) = true →
      size = MAX_FILE_SIZE → validateFile fn size = none)
    ∧ (∀ (fn : List Nat) (size : Nat), size = MAX_FILE_SIZE + 1 →
        validateFile fn size ≠ none)
    ∧ (∀ (g : Oracle) (w : World) (fd fn : List Nat) (msg : String),
        validateFile fn fd.length = some msg →
        persistStage g w fd fn
          = { status := 400, message := some msg, bodyRead := true, wrote := none,
              world := w })
    ∧ (∀ stem : List Nat, stem ≠ [] → ¬ 46 ∈ stem → ¬ 47 ∈ stem →
        bytesLower (splitextExt (stem ++ s2b ".JPG")) = s2b ".jpg"
        ∧ ∀ size : Nat, size ≤ MAX_FILE_SIZE →
            validateFile (stem ++ s2b ".JPG") size = none) := by
  refine ⟨?_, ?_, ?_, ?_⟩
  · intro fn size hext hsz
    subst hsz
    have hmem : bytesLower (splitextExt fn) ∈ ALLOWED_EXTENSIONS := by
      simpa using hext
    unfold validateFile
    simp only []
    simp [hmem]
  · intro fn size hsz
    subst hsz
    unfold validateFile
    simp only []
    split
    · simp
    · rw [if_pos (by omega)]
      simp
  · intro g w fd fn msg hv
    unfold persistStage
    simp [hv]
  · intro stem hne h46 h47
    have hlow : bytesLower (splitextExt (stem ++ s2b ".JPG")) = s2b ".jpg" := by
      rw [splitextExt_stem_jpg stem hne h46 h47]
      decide
    refine ⟨hlow, ?_⟩
    intro size hsize
    have hgt : ¬ size > MAX_FILE_SIZE := by omega
    have hmem : s2b ".jpg" ∈ ALLOWED_EXTENSIONS := by decide
    unfold validateFile
    simp only []
    rw [hlow]
    simp [hgt, hmem]

/-- Witness for C3 at concrete filenames and sizes. -/
theorem validator_boundary_witness :
    validateFile (s2b "a.jpg") MAX_FILE_SIZE = none
    ∧ validateFile (s2b "a.jpg") (MAX_FILE_SIZE + 1) ≠ none
    ∧ persistStage gOk w0 [1] (s2b "a.txt")
        = { status := 400,
            message := some "Неподдерживаемый формат файла. Допустимы: .jpg, .jpeg, .png, .gif",
            bodyRead := true, wrote := none, world := w0 }
    ∧ bytesLower (splitextExt (s2b "photo" ++ s2b ".JPG")) = s2b ".jpg"
    ∧ validateFile (s2b "photo" ++ s2b ".JPG") 12 = none :=
  ⟨validator_boundary.1 (s2b "a.jpg") MAX_FILE_SIZE (by decide) rfl,
   validator_boundary.2.1 (s2b "a.jpg") (MAX_FILE_SIZE + 1) rfl,
   validator_boundary.2.2.1 gOk w0 [1] (s2b "a.txt") _ (by decide),
   (validator_boundary.2.2.2 (s2b "photo") (by decide) (by decide) (by decide)).1,
   (validator_boundary.2.2.2 (s2b "photo") (by decide) (by decide) (by decide)).2 12
     (by decide)⟩

/-- Claim C9: an extracted upload whose filename carries a disallowed
extension is answered 400 with the descriptive allow-list message, with no
disk write, no insert, and the state unchanged. -/
theorem rejection_without_mutation (req : Request) (g : Oracle) (w : World)
    (ct boundary clh : List Nat) (n : Int) (fd fn : List Nat)
    (hp : req.path = "/upload")
    (h1 : req.contentTypeHeader = some ct)
    (h2 : (s2b "multipart/form-data").isPrefixOf ct = true)
    (h3 : (bsplit (s2b "boundary=") ct).get? 1 = some boundary)
    (h4 : req.contentLengthHeader = some clh)
    (h5 : pyParseInt clh = some n)
    (h6 : ¬ n > (MAX_FILE_SIZE * 2 : Int))
    (h7 : scanParts (bsplit (s2b "--" ++ boundary) (pyRead req.body n)) = (some fd, some fn))
    (h8 : fd ≠ []) (h9 : fn ≠ [])
    (hext : ALLOWED_EXTENSIONS.contains (bytesLower (splitextExt fn)) = false) :
    do_POST req g w
      = { status := 400,
          message := some "Неподдерживаемый формат файла. Допустимы: .jpg, .jpeg, .png, .gif",
          bodyRead := true, wrote := none, world := w } := by
  rw [do_POST_extracted req g w ct boundary clh n fd fn hp h1 h2 h3 h4 h5 h6 h7 h8 h9]
  unfold persistStage validateFile
  simp only []
  rw [hext]
  simp

set_option maxRecDepth 400000 in
/-- Witness for C9: a concrete upload of a.txt with valid framing. -/
theorem rejection_without_mutation_witness :
    do_POST (reqUpload bodyTxt) gOk w0
      = { status := 400,
          message := some "Неподдерживаемый формат файла. Допустимы: .jpg, .jpeg, .png, .gif",
          bodyRead := true, wrote := none, world := w0 } :=
  rejection_without_mutation (reqUpload bodyTxt) gOk w0
    (s2b "multipart/form-data; boundary=XBOUND") (s2b "XBOUND") (s2b "500") 500
    (s2b "hello") (s2b "a.txt")
    rfl rfl (by decide) (by decide) rfl (by decide) (by decide) (by decide)
    (by decide) (by decide) (by decide)

theorem persistStage_store_growth (g : Oracle) (w : World) (fd fn : List Nat)
    (hfd : fd ≠ []) :
    (persistStage g w fd fn).world.store = w.store
    ∨ ∃ rec0 : ImageRecord,
        (persistStage g w fd fn).world.store = w.store ++ [rec0] ∧ 0 < rec0.size := by
  unfold persistStage
  simp only []
  repeat' split
  all_goals try (left; rfl)
  right
  exact ⟨_, rfl, List.length_pos.mpr hfd⟩

/-- Claim C10: a multipart file field whose payload strips to nothing is
answered 400 with the file-not-found message and no state change (first and
second conjuncts); and every record the handler ever appends to the store
has a strictly positive size (third conjunct). -/
theorem empty_payload_rejection :
    (∀ (req : Request) (g : Oracle) (w : World) (ct boundary clh : List Nat) (n : Int)
        (fnOpt : Option (List Nat)),
      req.path = "/upload" →
      req.contentTypeHeader = some ct →
      (s2b "multipart/form-data").isPrefixOf ct = true →
      (bsplit (s2b "boundary=") ct).get? 1 = some boundary →
      req.contentLengthHeader = some clh →
      pyParseInt clh = some n →
      ¬ n > (MAX_FILE_SIZE * 2 : Int) →
      scanParts (bsplit (s2b "--" ++ boundary) (pyRead req.body n)) = (some [], fnOpt) →
      do_POST req g w
        = { status := 400, message := some "Файл не найден в запросе.",
            bodyRead := true, wrote := none, world := w })
    ∧ (∀ p : List Nat, (∀ b ∈ p, pyIsSpace b = true) → bytesStrip p = [])
    ∧ (∀ (req : Request) (g : Oracle) (w : World),
        (do_POST req g w).world.store = w.store
        ∨ ∃ rec0 : ImageRecord,
            (do_POST req g w).world.store = w.store ++ [rec0] ∧ 0 < rec0.size) := by
  refine ⟨?_, ?_, ?_⟩
  · intro req g w ct boundary clh n fnOpt hp h1 h2 h3 h4 h5 h6 h7
    have h3' : (bsplit (s2b "boundary=") ct)[1]? = some boundary := by
      simpa using h3
    unfold do_POST
    simp [hp, h1, h2, h3', h4, h5, h6, h7, pyTruthy]
  · exact bytesStrip_all_space
  · intro req g w
    unfold do_POST
    simp only []
    repeat' split
    all_goals try (left; rfl)
    rename_i hcond
    have htr := (Bool.and_eq_true_iff.mp hcond).1
    exact persistStage_store_growth g w _ _ (pyTruthy_getD htr)

set_option maxRecDepth 400000 in
/-- Witness for C10: a concrete upload whose payload is three spaces. -/
theorem empty_payload_rejection_witness :
    do_POST (reqUpload bodyBlank) gOk w0
      = { status := 400, message := some "Файл не найден в запросе.",
          bodyRead := true, wrote := none, world := w0 } :=
  empty_payload_rejection.1 (reqUpload bodyBlank) gOk w0
    (s2b "multipart/form-data; boundary=XBOUND") (s2b "XBOUND") (s2b "500") 500
    (some (s2b "a.jpg"))
    rfl rfl (by decide) (by decide) rfl (by decide) (by decide) (by decide)

/-- Claim C7: the page parameter is clamped to 1 when below 1, the page size
is fixed at 10, has_prev holds exactly when page > 1, has_next holds exactly
when (page-1)*10 + 10 < total; with 25 records page 1 returns 10 rows with
has_next and not has_prev, page 3 returns 5 rows with has_prev and not
has_next, and page 0 or negative clamps to page 1. -/
theorem pagination_contract :
    (∀ (s : List Nat) (recs : List ImageRecord) (p : Int),
      pyParseInt s = some p → p < 1 → (handle_images_list (some s) recs).page = 1)
    ∧ (∀ (q : Option (List Nat)) (recs : List ImageRecord),
        (handle_images_list q recs).rows.length ≤ 10)
    ∧ (∀ (q : Option (List Nat)) (recs : List ImageRecord),
        (handle_images_list q recs).has_prev
          = decide ((handle_images_list q recs).page > 1))
    ∧ (∀ (q : Option (List Nat)) (recs : List ImageRecord),
        (handle_images_list q recs).has_next
          = decide (((handle_images_list q recs).page - 1) * 10 + 10
              < (recs.length : Int)))
    ∧ ((handle_images_list (some (s2b "1")) (dummyRecords 25)).rows.length = 10
        ∧ (handle_images_list (some (s2b "1")) (dummyRecords 25)).has_next = true
        ∧ (handle_images_list (some (s2b "1")) (dummyRecords 25)).has_prev = false)
    ∧ ((handle_images_list (some (s2b "3")) (dummyRecords 25)).rows.length = 5
        ∧ (handle_images_list (some (s2b "3")) (dummyRecords 25)).has_next = false
        ∧ (handle_images_list (some (s2b "3")) (dummyRecords 25)).has_prev = true)
    ∧ ((handle_images_list (some (s2b "0")) (dummyRecords 25)).page = 1
        ∧ (handle_images_list (some (s2b "-5")) (dummyRecords 25)).page = 1) := by
  refine ⟨?_, ?_, ?_, ?_, ?_, ?_, ?_⟩
  · intro s recs p hp hlt
    unfold handle_images_list
    simp only []
    rw [hp]
    simp [hlt]
  · intro q recs
    unfold handle_images_list
    simp [List.length_take]
  · intro q recs
    rfl
  · intro q recs
    rfl
  · exact ⟨by decide, by decide, by decide⟩
  · exact ⟨by decide, by decide, by decide⟩
  · exact ⟨by decide, by decide⟩

/-- Witness for C7: the clamping conjunct at a concrete page value. -/
theorem pagination_contract_witness :
    (handle_images_list (some (s2b "0")) ([] : List ImageRecord)).page = 1 :=
  pagination_contract.1 (s2b "0") [] 0 (by decide) (by decide)

/-- Claim C8: deleting an existing id answers 303, removes every store row
with that id, and removes the backing file from the upload directory;
deleting an absent id answers 404 and leaves the state untouched. -/
theorem delete_consistency :
    (∀ (i : Nat) (w : World) (row : ImageRecord),
      w.store.find? (fun r => r.id == i) = some row → row.filename ≠ [] →
      (handle_delete i w).1 = 303
      ∧ ((handle_delete i w).2.store.any (fun r => r.id == i)) = false
      ∧ diskHas (handle_delete i w).2 row.filename = false)
    ∧ (∀ (i : Nat) (w : World),
      w.store.find? (fun r => r.id == i) = none → handle_delete i w = (404, w)) := by
  constructor
  · intro i w row hfind hname
    have hempty : row.filename.isEmpty = false := isEmpty_false_of_ne hname
    have hval : handle_delete i w
        = (303, { disk := w.disk.filter (fun p => p.1 != row.filename),
                  store := w.store.filter (fun r => r.id != i) }) := by
      unfold handle_delete
      rw [hfind]
      simp [hempty]
    rw [hval]
    refine ⟨rfl, ?_, ?_⟩
    · exact any_key_filter w.store (fun r => r.id) i
    · unfold diskHas
      exact any_key_filter w.disk Prod.fst row.filename
  · intro i w hfind
    unfold handle_delete
    rw [hfind]

/-- Witness for C8: a store with one row (id 1) and its file on disk. -/
theorem delete_consistency_witness :
    ((handle_delete 1 wOne).1 = 303
      ∧ ((handle_delete 1 wOne).2.store.any (fun r => r.id == 1)) = false
      ∧ diskHas (handle_delete 1 wOne).2 (s2b "deadbeef.jpg") = false)
    ∧ handle_delete 2 wOne = (404, wOne) :=
  ⟨delete_consistency.1 1 wOne
      { id := 1, filename := s2b "deadbeef.jpg", original_name := s2b "a.jpg",
        size := 3, file_type := s2b "jpg" }
      (by decide) (by decide),
   delete_consistency.2 2 wOne (by decide)⟩

theorem connLoop_all_fail (connect : Nat → Option String) (msgs : Nat → String) :
    ∀ (r : Nat), 0 < r → ∀ (a : Nat) (last : Option String),
      (∀ i, a ≤ i → i < a + r → connect i = some (msgs i)) →
      connLoop connect a r last
        = { result := Except.error (PyErr.dbError (msgs (a + r - 1))),
            attempts := r,
            logs := (List.range' a r).map (fun k => (k, msgs k)),
            sleeps := r } := by
  intro r
  induction r with
  | zero => intro h; omega
  | succ m ih =>
    intro _ a last hfail
    have ha : connect a = some (msgs a) := hfail a (Nat.le_refl a) (by omega)
    unfold connLoop
    rw [ha]
    cases m with
    | zero =>
      simp [connLoop, List.range']
    | succ m' =>
      have hrest := ih (by omega) (a + 1) (some (msgs a))
        (fun i hi1 hi2 => hfail i (by omega) (by omega))
      simp only []
      rw [hrest]
      have hidx : a + 1 + (m' + 1) - 1 = a + (m' + 1 + 1) - 1 := by omega
      have hrange : List.range' a (m' + 1 + 1) = a :: List.range' (a + 1) (m' + 1) := rfl
      simp [hidx, hrange]

/-- Claim C4, amended: when every connection attempt fails, get_db_connection
makes exactly max_attempts attempts, logs each failure with its attempt
number, sleeps the fixed delay after each failure, and then fails by
re-raising the last underlying connect error (the psycopg2 exception), not a
ConnectionError wrapper. -/
theorem connection_retry_exhaustion (max_attempts : Nat)
    (connect : Nat → Option String) (msgs : Nat → String)
    (hmax : 0 < max_attempts)
    (hfail : ∀ i, 1 ≤ i → i ≤ max_attempts → connect i = some (msgs i)) :
    (get_db_connection max_attempts connect).result
        = Except.error (PyErr.dbError (msgs max_attempts))
    ∧ (get_db_connection max_attempts connect).attempts = max_attempts
    ∧ (get_db_connection max_attempts connect).logs
        = (List.range' 1 max_attempts).map (fun k => (k, msgs k))
    ∧ (get_db_connection max_attempts connect).sleeps = max_attempts := by
  have h := connLoop_all_fail connect msgs max_attempts hmax 1 none
    (fun i hi1 hi2 => hfail i hi1 (by omega))
  unfold get_db_connection
  rw [h]
  refine ⟨?_, rfl, rfl, rfl⟩
  have : 1 + max_attempts - 1 = max_attempts := by omega
  rw [this]

/-- Counterexample to C4 as stated: with every attempt failing, the raised
exception is the last underlying connect error, not a ConnectionError. -/
theorem connection_retry_counterexample :
    isConnectionErrorResult (get_db_connection 30 failingConnect) = false
    ∧ (get_db_connection 30 failingConnect).result
        = Except.error (PyErr.dbError "connection refused") := by
  exact ⟨rfl, rfl⟩

/-- Witness for C4 at two failing attempts. -/
theorem connection_retry_exhaustion_witness :
    (get_db_connection 2 failingConnect).result
        = Except.error (PyErr.dbError "connection refused")
    ∧ (get_db_connection 2 failingConnect).attempts = 2
    ∧ (get_db_connection 2 failingConnect).logs
        = [(1, "connection refused"), (2, "connection refused")]
    ∧ (get_db_connection 2 failingConnect).sleeps = 2 := by
  have h := connection_retry_exhaustion 2 failingConnect
    (fun _ => "connection refused") (by omega) (fun i _ _ => rfl)
  refine ⟨h.1, h.2.1, ?_, h.2.2.2⟩
  rw [h.2.2.1]
  rfl
